import Mathlib

/-!
Verification of the Botpress core migration orchestrator
(`src/bp/core/services/migration/index.ts`) via a shallow embedding.

Versions are modelled as numeric semantic-version triples; the environment
(`process.*` flags and the collaborators' stored state) is a record of inputs;
side effects (cache clearing, handler invocation, marker writes, audit writes,
log lines that matter to the contract) are modelled as an event trace, and
process termination / uncaught exceptions as an `Outcome`.
-/

namespace BP

/-- Numeric core of a semantic version, as compared by `semver`. -/
structure SemVer where
  major : Nat
  minor : Nat
  patch : Nat
deriving DecidableEq, Repr

/-- Strict semver precedence (`semver.lt`) on numeric triples. -/
def SemVer.ltb (a b : SemVer) : Bool :=
  decide (a.major < b.major ∨ (a.major = b.major ∧
    (a.minor < b.minor ∨ (a.minor = b.minor ∧ a.patch < b.patch))))

/-- Non-strict semver precedence (`semver.lte`) on numeric triples. -/
def SemVer.leb (a b : SemVer) : Bool :=
  decide (a.major < b.major ∨ (a.major = b.major ∧
    (a.minor < b.minor ∨ (a.minor = b.minor ∧ a.patch ≤ b.patch))))

/-- `semver.satisfies v ">lo <= hi"`: v lies in the half-open interval (lo, hi]. -/
def satisfiesRange (v lo hi : SemVer) : Bool :=
  SemVer.ltb lo v && SemVer.leb v hi

/-- Split a character list on a separator (the list analogue of
`String.prototype.split` with a one-character separator). -/
def splitChars (sep : Char) : List Char → List (List Char)
  | [] => [[]]
  | c :: cs =>
    let r := splitChars sep cs
    if c = sep then [] :: r
    else
      match r with
      | [] => [[c]]
      | h :: t => (c :: h) :: t

/-- Parse a non-empty all-digit character list as a decimal number. -/
def parseNatCharsAux : List Char → Nat → Option Nat
  | [], acc => some acc
  | c :: cs, acc =>
    if c.isDigit then parseNatCharsAux cs (acc * 10 + (c.toNat - 48)) else none

/-- Parse a non-empty all-digit character list as a decimal number. -/
def parseNatChars (cs : List Char) : Option Nat :=
  if cs.isEmpty then none else parseNatCharsAux cs 0

/-- Numeric `major.minor.patch` parse, the core of `semver.valid`
(`"not-a-version"` is rejected, `"12.0.0"` accepted). -/
def parseSemver (s : String) : Option SemVer :=
  match splitChars '.' s.data with
  | [a, b, c] =>
    match parseNatChars a, parseNatChars b, parseNatChars c with
    | some x, some y, some z => some ⟨x, y, z⟩
    | _, _, _ => none
  | _ => none

/-- `MigrationType` from the source: the three migration domains. -/
inductive MigrationType where
  | database
  | config
  | content
deriving DecidableEq, Repr

/-- `MigrationTarget` from the source. -/
inductive MigrationTarget where
  | core
  | bot
deriving DecidableEq, Repr

/-- `MigrationFile`: a discovered migration descriptor
(the `location` field is folded into the pairing with its module content). -/
structure MigrationFile where
  date : Nat
  version : SemVer
  filename : String
  title : String
deriving DecidableEq, Repr

/-- Behaviour of one migration handler when invoked: it either resolves to a
`MigrationResult {success, message}` or rejects with an error message. -/
inductive HandlerBehavior where
  | returns (success : Bool) (message : Option String)
  | throws (msg : String)
deriving DecidableEq, Repr

/-- `Migration['info']` from the source. -/
structure MigrationInfo where
  description : String
  target : Option MigrationTarget
  type : MigrationType
deriving DecidableEq, Repr

/-- A loaded migration module: `info`, a mandatory `up` handler and an
optional `down` handler (`down = none` models a module without `down`). -/
structure Migration where
  info : MigrationInfo
  up : HandlerBehavior
  down : Option HandlerBehavior
deriving DecidableEq, Repr

/-- `this.loadedMigrations`, a map from filename to loaded module, modelled as
an association list so that `_.isEmpty` is decidable. -/
abbrev LoadedMap := List (String × Migration)

/-- Lookup in `loadedMigrations` (`this.loadedMigrations[filename]`). -/
def lookupLoaded (loaded : LoadedMap) (filename : String) : Option Migration :=
  match loaded with
  | [] => none
  | (k, v) :: rest => if k = filename then some v else lookupLoaded rest filename

/-- The options object of `filterMigrations`. -/
structure FilterOpts where
  isDown : Bool
  type : Option MigrationType
  target : Option MigrationTarget
deriving DecidableEq, Repr

/-- The comparator built by `filterMigrations`:
`isDown ? ">target <= current" : ">current <= target"` applied to a version. -/
def versionInPlanRange (isDown : Bool) (currentVersion targetVersion v : SemVer) : Bool :=
  if isDown then satisfiesRange v targetVersion currentVersion
  else satisfiesRange v currentVersion targetVersion

/-- First conjunct of the content filter:
`(isDown && content?.down) || (!isDown && content?.up)` for a loaded module
(`up` is mandatory on the `Migration` interface, so `content?.up` is truthy). -/
def directionOK (isDown : Bool) (c : Migration) : Bool :=
  (isDown && c.down.isSome) || !isDown

/-- The predicate of the second `filter` in `filterMigrations`, evaluated on
one file: content must exist, match the direction, and match the requested
`type` and `target` when those are supplied. -/
def contentMatches (loaded : LoadedMap) (opts : FilterOpts) (f : MigrationFile) : Bool :=
  match lookupLoaded loaded f.filename with
  | none => false
  | some c =>
    directionOK opts.isDown c &&
    (opts.type.isNone || decide (opts.type = some c.info.type)) &&
    (opts.target.isNone || decide (opts.target = c.info.target))

/-- `MigrationService.filterMigrations`: keep files whose version satisfies the
direction's half-open interval; when `loadedMigrations` is non-empty, further
keep only files whose loaded content matches direction/type/target. -/
def filterMigrations (loaded : LoadedMap) (targetVersion : SemVer)
    (files : List MigrationFile) (currentVersion : SemVer) (opts : FilterOpts) :
    List MigrationFile :=
  let filteredFiles := files.filter fun file =>
    versionInPlanRange opts.isDown currentVersion targetVersion file.version
  if loaded.isEmpty then filteredFiles
  else filteredFiles.filter (contentMatches loaded opts)

/-- Comparison relation of `_.sortBy(..., x => x.date)`: dates ascending. -/
abbrev dateLE (a b : MigrationFile) : Prop := a.date ≤ b.date

instance : DecidableRel dateLE := fun a b => Nat.decLe a.date b.date

instance : IsTotal MigrationFile dateLE := ⟨fun a b => Nat.le_total a.date b.date⟩

instance : IsTrans MigrationFile dateLE := ⟨fun _ _ _ => Nat.le_trans⟩

/-- `_.sortBy(xs, x => x.date)`: a stable sort by `date` ascending, modelled
by insertion sort (which is stable for the non-strict relation). -/
def sortByDate (l : List MigrationFile) : List MigrationFile :=
  List.insertionSort dateLE l

/-- `MigrationService.getMigrationsToExecute`: the three per-domain filter
passes (database against the db marker, config and content against the config
marker), concatenated and sorted by `date` ascending. -/
def getMigrationsToExecute (loaded : LoadedMap)
    (dbVersion configVersion targetVersion : SemVer) (isDown : Bool)
    (allMigrations : List MigrationFile) : List MigrationFile :=
  sortByDate
    (filterMigrations loaded targetVersion allMigrations dbVersion
        ⟨isDown, some MigrationType.database, none⟩ ++
      (filterMigrations loaded targetVersion allMigrations configVersion
          ⟨isDown, some MigrationType.config, none⟩ ++
        filterMigrations loaded targetVersion allMigrations configVersion
          ⟨isDown, some MigrationType.content, none⟩))

/-- Version marker governing a domain in `getMigrationsToExecute`:
`database` units are filtered against the db marker, `config` and `content`
units against the config marker. -/
def markerFor (t : MigrationType) (dbVersion configVersion : SemVer) : SemVer :=
  match t with
  | MigrationType.database => dbVersion
  | MigrationType.config => configVersion
  | MigrationType.content => configVersion

/-- Observable effects of a run, in order of occurrence. -/
inductive Event where
  | discovered
  | loadedHandler (filename : String)
  | displayedStatus (dryRun : Bool)
  | loggedInvalidTarget
  | loggedAutoMigrateError
  | clearedCache
  | warnedCacheClearFailed
  | skippedIgnored (filename : String)
  | invokedHandler (filename : String) (isDown : Bool)
  | unitSucceeded (filename : String)
  | unitFailed (filename : String)
  | loggedRunFailures
  | auditWritten
  | warnedAuditFailed
  | dbMarkerWrite (v : SemVer)
  | configMarkerWrite (v : SemVer)
  | botMigrationNotified
deriving DecidableEq, Repr

/-- How control leaves a phase: normal return, `process.exit`, or an uncaught
exception (a rejected promise). -/
inductive Outcome where
  | normal
  | exited
  | raised (msg : String)
deriving DecidableEq, Repr

/-- Events that mutate durable or cached state (handler invocation, cache
clearing, marker writes, audit writes). -/
def Event.isMutation : Event → Bool
  | Event.clearedCache => true
  | Event.invokedHandler _ _ => true
  | Event.auditWritten => true
  | Event.dbMarkerWrite _ => true
  | Event.configMarkerWrite _ => true
  | _ => false

/-- Whether the first list is an initial segment of the second. -/
def leadsWith : List Char → List Char → Bool
  | [], _ => true
  | _ :: _, [] => false
  | a :: as, b :: bs => decide (a = b) && leadsWith as bs

/-- Substring test on character lists (JS `String.prototype.includes`:
the empty pattern matches everywhere). -/
def containsSub (hay pat : List Char) : Bool :=
  match hay with
  | [] => pat.isEmpty
  | _ :: t => leadsWith pat hay || containsSub t pat

/-- `TESTMIG_IGNORE_LIST?.split(',').filter(x => filename.includes(x)).length`
used as a truthy condition. -/
def ignoreHit (ignoreList : Option String) (filename : String) : Bool :=
  match ignoreList with
  | none => false
  | some l =>
    !((splitChars ',' l.data).filter (fun x => containsSub filename.data x)).isEmpty

/-- Directives and collaborator state consumed by `executeMigrations`. -/
structure ExecEnv where
  isDown : Bool
  ignoreList : Option String
  cachePathExists : Bool
  cacheClearFails : Bool
  isFailsafe : Bool
deriving DecidableEq, Repr

/-- Handler selected by the executor's branch
`if (isDown && down) ... else if (!isDown) result = up(...)`: on a downgrade
the `down` handler when present, otherwise (`result` stays `undefined`); on an
upgrade always `up`. -/
def handlerFor (isDown : Bool) (c : Migration) : Option HandlerBehavior :=
  if isDown then c.down else some c.up

/-- One iteration of the executor's `Promise.mapSeries` body: events emitted,
whether this unit reported `success: false`, and an uncaught error if one was
raised (a missing module or a downgrade without `down` makes `result`
`undefined`, so `result.success` throws a `TypeError`). -/
def runUnit (loaded : LoadedMap) (env : ExecEnv) (f : MigrationFile) :
    List Event × Bool × Option String :=
  if ignoreHit env.ignoreList f.filename then
    ([Event.skippedIgnored f.filename], false, none)
  else
    match lookupLoaded loaded f.filename with
    | none => ([], false, some "TypeError: migration module is undefined")
    | some c =>
      match handlerFor env.isDown c with
      | some (HandlerBehavior.returns s _) =>
        ([Event.invokedHandler f.filename env.isDown,
          if s then Event.unitSucceeded f.filename else Event.unitFailed f.filename],
         !s, none)
      | some (HandlerBehavior.throws msg) =>
        ([Event.invokedHandler f.filename env.isDown], false, some msg)
      | none => ([], false, some "TypeError: result is undefined")

/-- Sequential execution of the plan (`Promise.mapSeries`): stops at the first
uncaught error, otherwise accumulates events and the `hasFailures` flag. -/
def runUnits (loaded : LoadedMap) (env : ExecEnv) :
    List MigrationFile → List Event × Bool × Option String
  | [] => ([], false, none)
  | f :: fs =>
    let r := runUnit loaded env f
    match r.2.2 with
    | some e => (r.1, r.2.1, some e)
    | none =>
      let rest := runUnits loaded env fs
      (r.1 ++ rest.1, r.2.1 || rest.2.1, rest.2.2)

/-- Cache clearing at the start of `executeMigrations`: attempted only when the
cache path exists; a failure is logged as a warning and does not abort. -/
def cacheEvents (env : ExecEnv) : List Event :=
  if env.cachePathExists then
    if env.cacheClearFails then [Event.warnedCacheClearFailed]
    else [Event.clearedCache]
  else []

/-- `MigrationService.executeMigrations`: clear the cache, run the plan
sequentially, then — unless a strict-mode failure exits the process — write the
config version marker via `mergeBotpressConfig({version: targetVersion})`.
An uncaught error from a unit propagates immediately. -/
def executeMigrations (loaded : LoadedMap) (env : ExecEnv) (targetVersion : SemVer)
    (plan : List MigrationFile) : List Event × Outcome :=
  let r := runUnits loaded env plan
  match r.2.2 with
  | some e => (cacheEvents env ++ r.1, Outcome.raised e)
  | none =>
    if r.2.1 then
      if env.isFailsafe then
        (cacheEvents env ++ r.1 ++
          [Event.loggedRunFailures, Event.configMarkerWrite targetVersion],
         Outcome.normal)
      else
        (cacheEvents env ++ r.1 ++ [Event.loggedRunFailures], Outcome.exited)
    else
      (cacheEvents env ++ r.1 ++ [Event.configMarkerWrite targetVersion],
       Outcome.normal)

/-- Collaborator failure modes reaching `persistMigrationStatus`. -/
structure PersistEnv where
  auditWriteFails : Bool
  markerWriteFails : Bool
deriving DecidableEq, Repr

/-- `MigrationService.persistMigrationStatus`: the audit insert into
`srv_migrations` is wrapped in try/catch (a failure only logs a warning); the
`srv_metadata` marker insert, done when `dbVersion !== targetVersion`, is not
protected, so its failure propagates; finally the bot migration service is
notified. -/
def persistMigrationStatus (penv : PersistEnv) (dbVersion targetVersion : SemVer) :
    List Event × Outcome :=
  let auditEv := if penv.auditWriteFails then [Event.warnedAuditFailed]
    else [Event.auditWritten]
  if dbVersion ≠ targetVersion then
    if penv.markerWriteFails then
      (auditEv, Outcome.raised "insert srv_metadata failed")
    else
      (auditEv ++ [Event.dbMarkerWrite targetVersion, Event.botMigrationNotified],
       Outcome.normal)
  else
    (auditEv ++ [Event.botMigrationNotified], Outcome.normal)

/-- Environment of one run: `process.*` directives, `TESTMIG_*` variables, the
collaborators' stored versions and failure modes, and the migration files found
on disk paired with the modules `require` would load for them.
Version-valued variables other than `MIGRATE_TARGET` are typed as versions;
only `MIGRATE_TARGET`, whose textual validity the code checks, is a string. -/
structure Env where
  skipMigrations : Bool
  migrateTarget : Option String
  testmigBpVersion : Option SemVer
  botpressVersion : SemVer
  migrateCmd : Option String
  migrateDryRun : Bool
  autoMigrate : Bool
  isFailsafe : Bool
  ignoreList : Option String
  testmigAll : Bool
  testmigNew : Bool
  testmigConfigVersion : Option SemVer
  testmigDbVersion : Option SemVer
  storedConfigVersion : SemVer
  storedDbVersion : Option SemVer
  cachePathExists : Bool
  cacheClearFails : Bool
  auditWriteFails : Bool
  markerWriteFails : Bool
  diskMigrations : List (MigrationFile × Migration)
deriving DecidableEq, Repr

/-- `process.MIGRATE_TARGET` as a truthy value: an empty string is falsy in
`MIGRATE_TARGET || TESTMIG_BP_VERSION || BOTPRESS_VERSION` and in the validity
check, so it behaves like an unset variable. -/
def effectiveTarget (env : Env) : Option String :=
  match env.migrateTarget with
  | some s => if s.data.isEmpty then none else some s
  | none => none

/-- Largest version of the catalog: `_.last(versions.sort(semver.compare))`.
An empty catalog yields `none` (the source would produce `undefined`). -/
def maxVersion : List SemVer → Option SemVer
  | [] => none
  | v :: rest => some (rest.foldl (fun a b => if SemVer.ltb a b then b else a) v)

/-- Version resolution after the target check passed: config marker from
`TESTMIG_CONFIG_VERSION` or the stored config, db marker from
`TESTMIG_DB_VERSION` or the `srv_metadata` query (falling back to the config
marker), and the `TESTMIG_ALL`/`TESTMIG_NEW` overrides. Returns
`(configVersion, dbVersion, targetVersion)`. -/
def resolveVersions (env : Env) (migrations : List MigrationFile) (target0 : SemVer) :
    SemVer × SemVer × SemVer :=
  let configVersion := env.testmigConfigVersion.getD env.storedConfigVersion
  let dbVersion := env.testmigDbVersion.getD (env.storedDbVersion.getD configVersion)
  if env.testmigAll || env.testmigNew then
    let tv := (maxVersion (migrations.map (fun f => f.version))).getD target0
    let cv := if env.testmigNew then env.botpressVersion else ⟨12, 0, 0⟩
    (cv, dbVersion, tv)
  else
    (configVersion, dbVersion, target0)

/-- `detectAndSetupVersions` together with the constructor's target
resolution `MIGRATE_TARGET || TESTMIG_BP_VERSION || BOTPRESS_VERSION`:
`none` models the `process.exit` taken when an explicit target is supplied but
is not a valid semantic version. -/
def detectVersions (env : Env) (migrations : List MigrationFile) :
    Option (SemVer × SemVer × SemVer) :=
  match effectiveTarget env with
  | some s =>
    match parseSemver s with
    | none => none
    | some tv => some (resolveVersions env migrations tv)
  | none =>
    some (resolveVersions env migrations (env.testmigBpVersion.getD env.botpressVersion))

/-- Loading loop of `getAllMigrations`: each discovered file whose filename is
not yet in `loadedMigrations` gets its module `require`d and recorded, in
discovery order. Returns the final map and the load events. -/
def loadMigrationsAux (acc : LoadedMap) :
    List (MigrationFile × Migration) → LoadedMap × List Event
  | [] => (acc, [])
  | p :: rest =>
    if (lookupLoaded acc p.1.filename).isSome then loadMigrationsAux acc rest
    else
      let r := loadMigrationsAux (acc ++ [(p.1.filename, p.2)]) rest
      (r.1, Event.loadedHandler p.1.filename :: r.2)

/-- `getAllMigrations`' effect on `loadedMigrations`, starting from an empty
map as in a fresh service. -/
def loadMigrations (disk : List (MigrationFile × Migration)) : LoadedMap × List Event :=
  loadMigrationsAux [] disk

/-- `MigrationService.initialize`: skip check, discovery and handler loading,
version detection (which may exit on an invalid explicit target), plan
computation, early return on an empty plan without an explicit migration
command, status display, dry-run exit, auto-migrate gate, execution,
persistence, and the final exit when a migration command was given. -/
def initializeService (env : Env) : List Event × Outcome :=
  if env.skipMigrations then ([], Outcome.normal)
  else
    let allMigrations := env.diskMigrations.map (fun p => p.1)
    let lm := loadMigrations env.diskMigrations
    let ev0 := Event.discovered :: lm.2
    match detectVersions env allMigrations with
    | none => (ev0 ++ [Event.loggedInvalidTarget], Outcome.exited)
    | some (configVersion, dbVersion, targetVersion) =>
      let isDown := decide (env.migrateCmd = some "down")
      let plan := getMigrationsToExecute lm.1 dbVersion configVersion targetVersion
        isDown allMigrations
      if plan.isEmpty && env.migrateCmd.isNone then (ev0, Outcome.normal)
      else
        let ev1 := ev0 ++ [Event.displayedStatus env.migrateDryRun]
        if env.migrateDryRun then (ev1, Outcome.exited)
        else if !env.autoMigrate then
          if env.isFailsafe then (ev1 ++ [Event.loggedAutoMigrateError], Outcome.normal)
          else (ev1 ++ [Event.loggedAutoMigrateError], Outcome.exited)
        else
          let execEnv : ExecEnv :=
            ⟨isDown, env.ignoreList, env.cachePathExists, env.cacheClearFails,
             env.isFailsafe⟩
          let ex := executeMigrations lm.1 execEnv targetVersion plan
          match ex.2 with
          | Outcome.normal =>
            let pe := persistMigrationStatus ⟨env.auditWriteFails, env.markerWriteFails⟩
              dbVersion targetVersion
            match pe.2 with
            | Outcome.normal =>
              (ev1 ++ ex.1 ++ pe.1,
               if env.migrateCmd.isSome then Outcome.exited else Outcome.normal)
            | o => (ev1 ++ ex.1 ++ pe.1, o)
          | o => (ev1 ++ ex.1, o)

/-! Helper lemmas about the scheduler. -/

/-- Interval `(t, t]` is empty: no version satisfies `>t <= t`. -/
lemma satisfiesRange_self (v t : SemVer) : satisfiesRange v t t = false := by
  have h : ¬ (satisfiesRange v t t = true) := by
    simp only [satisfiesRange, Bool.and_eq_true, SemVer.ltb, SemVer.leb,
      decide_eq_true_eq]
    rintro ⟨h1, h2⟩
    omega
  simpa using h

/-- Both directions of the plan interval are empty when current = target. -/
lemma versionInPlanRange_self (isDown : Bool) (t v : SemVer) :
    versionInPlanRange isDown t t v = false := by
  unfold versionInPlanRange
  split <;> exact satisfiesRange_self v t

/-- Membership in `filterMigrations` with a non-empty `loadedMigrations`. -/
lemma mem_filterMigrations {loaded : LoadedMap} {tgt : SemVer}
    {files : List MigrationFile} {cur : SemVer} {opts : FilterOpts}
    {u : MigrationFile} (hne : loaded ≠ []) :
    u ∈ filterMigrations loaded tgt files cur opts ↔
      u ∈ files ∧ versionInPlanRange opts.isDown cur tgt u.version = true ∧
        contentMatches loaded opts u = true := by
  have h : loaded.isEmpty = false := by
    cases loaded with
    | nil => exact absurd rfl hne
    | cons a l => rfl
  simp only [filterMigrations, h, Bool.false_eq_true, if_false, List.mem_filter]
  tauto

/-- Decomposition of the content filter. -/
lemma contentMatches_eq_true_iff {loaded : LoadedMap} {opts : FilterOpts}
    {u : MigrationFile} :
    contentMatches loaded opts u = true ↔
      ∃ c, lookupLoaded loaded u.filename = some c ∧
        directionOK opts.isDown c = true ∧
        (opts.type.isNone || decide (opts.type = some c.info.type)) = true ∧
        (opts.target.isNone || decide (opts.target = c.info.target)) = true := by
  unfold contentMatches
  cases h : lookupLoaded loaded u.filename with
  | none => simp [h]
  | some c => simp [h, Bool.and_eq_true, and_assoc]

/-- `filterMigrations` is empty when current = target. -/
lemma filterMigrations_self_empty (loaded : LoadedMap) (t : SemVer)
    (files : List MigrationFile) (opts : FilterOpts) :
    filterMigrations loaded t files t opts = [] := by
  have h : files.filter
      (fun file => versionInPlanRange opts.isDown t t file.version) = [] := by
    apply List.filter_eq_nil_iff.mpr
    intro a _
    simp [versionInPlanRange_self]
  unfold filterMigrations
  split <;> simp [h]

/-- Membership in the computed plan, for a non-empty `loadedMigrations` map:
a unit is planned exactly when its loaded content exists, matches the
direction, and its version lies in the direction's interval for the marker of
its own domain. -/
lemma mem_getMigrationsToExecute {loaded : LoadedMap}
    {dbVersion configVersion targetVersion : SemVer} {isDown : Bool}
    {files : List MigrationFile} {u : MigrationFile} (hne : loaded ≠ []) :
    u ∈ getMigrationsToExecute loaded dbVersion configVersion targetVersion
        isDown files ↔
      u ∈ files ∧ ∃ c, lookupLoaded loaded u.filename = some c ∧
        directionOK isDown c = true ∧
        versionInPlanRange isDown (markerFor c.info.type dbVersion configVersion)
          targetVersion u.version = true := by
  unfold getMigrationsToExecute sortByDate
  rw [(List.perm_insertionSort dateLE _).mem_iff, List.mem_append, List.mem_append,
    mem_filterMigrations hne, mem_filterMigrations hne, mem_filterMigrations hne]
  simp only [contentMatches_eq_true_iff, Option.isNone_none, Option.isNone_some,
    Bool.false_or, Bool.true_or, decide_eq_true_eq, Option.some.injEq]
  constructor
  · rintro (⟨hu, hr, c, hc, hd, hty, -⟩ | ⟨hu, hr, c, hc, hd, hty, -⟩ |
      ⟨hu, hr, c, hc, hd, hty, -⟩) <;>
      exact ⟨hu, c, hc, hd, by rw [← hty]; simpa [markerFor] using hr⟩
  · rintro ⟨hu, c, hc, hd, hr⟩
    cases hty : c.info.type with
    | database =>
      exact Or.inl ⟨hu, by rw [hty] at hr; simpa [markerFor] using hr,
        c, hc, hd, hty.symm, trivial⟩
    | config =>
      exact Or.inr (Or.inl ⟨hu, by rw [hty] at hr; simpa [markerFor] using hr,
        c, hc, hd, hty.symm, trivial⟩)
    | content =>
      exact Or.inr (Or.inr ⟨hu, by rw [hty] at hr; simpa [markerFor] using hr,
        c, hc, hd, hty.symm, trivial⟩)

/-! Claim C1. -/

/-- Catalog unit for the C1 counterexample: version 1.1.0, loaded content of
domain `config` with no `down` handler. -/
def exC1File : MigrationFile := ⟨1, ⟨1, 1, 0⟩, "a.js", "t"⟩

/-- Loaded module for the C1 counterexample: no `down` handler. -/
def exC1Mig : Migration :=
  ⟨⟨"d", none, MigrationType.config⟩, HandlerBehavior.returns true none, none⟩

/-- Loaded map for the C1 counterexample. -/
def exC1Loaded : LoadedMap := [("a.js", exC1Mig)]

/-- C1 counterexample: on a downgrade from `current = 1.2.0` to
`target = 1.0.0`, the unit at version 1.1.0 lies in the half-open interval
`(target, current]` for its domain's marker, yet the computed plan omits it,
because its loaded handler lacks a `down` function. So the plan does not
contain exactly the catalog units whose version lies in the interval. -/
theorem c1_counterexample :
    versionInPlanRange true (markerFor exC1Mig.info.type ⟨1, 2, 0⟩ ⟨1, 2, 0⟩)
      ⟨1, 0, 0⟩ exC1File.version = true ∧
    exC1File ∉ getMigrationsToExecute exC1Loaded ⟨1, 2, 0⟩ ⟨1, 2, 0⟩ ⟨1, 0, 0⟩
      true [exC1File] := by
  decide

/-- C1 (amended): for every run with a populated `loadedMigrations` map, the
plan computed by `getMigrationsToExecute` contains exactly the catalog units
whose version lies in the half-open interval `(current, target]` for an
upgrade and `(target, current]` for a downgrade — where `current` is the
database version marker for units of domain `database` and the config version
marker for units of domain `config` or `content` — and whose loaded handler
declares the requested direction (`down` must exist for a downgrade; `up`
always exists); in particular, for every pair with current = target, the plan
is empty. -/
theorem c1_plan_interval_and_direction (loaded : LoadedMap)
    (dbVersion configVersion targetVersion : SemVer) (isDown : Bool)
    (files : List MigrationFile) (hne : loaded ≠ []) :
    (∀ u c, u ∈ files → lookupLoaded loaded u.filename = some c →
      (u ∈ getMigrationsToExecute loaded dbVersion configVersion targetVersion
          isDown files ↔
        versionInPlanRange isDown (markerFor c.info.type dbVersion configVersion)
          targetVersion u.version = true ∧ directionOK isDown c = true)) ∧
    (dbVersion = targetVersion → configVersion = targetVersion →
      getMigrationsToExecute loaded dbVersion configVersion targetVersion
        isDown files = []) := by
  constructor
  · intro u c hu hc
    rw [mem_getMigrationsToExecute hne]
    constructor
    · rintro ⟨-, c', hc', hd, hr⟩
      rw [hc] at hc'
      cases hc'
      exact ⟨hr, hd⟩
    · rintro ⟨hr, hd⟩
      exact ⟨hu, c, hc, hd, hr⟩
  · rintro rfl rfl
    unfold getMigrationsToExecute
    rw [filterMigrations_self_empty, filterMigrations_self_empty,
      filterMigrations_self_empty]
    rfl

/-- Catalog unit for the C1 witness. -/
def exC1WFile : MigrationFile := ⟨1, ⟨1, 1, 0⟩, "w.js", "t"⟩

/-- Loaded module for the C1 witness. -/
def exC1WMig : Migration :=
  ⟨⟨"d", none, MigrationType.config⟩, HandlerBehavior.returns true none, none⟩

/-- Loaded map for the C1 witness. -/
def exC1WLoaded : LoadedMap := [("w.js", exC1WMig)]

/-- Witness for the amended C1 at a concrete run: the membership criterion
instantiated for an upgrade from 1.0.0 to 1.2.0, and the empty plan at
current = target = 1.2.0. -/
theorem c1_plan_interval_and_direction_witness :
    (exC1WFile ∈ getMigrationsToExecute exC1WLoaded ⟨1, 0, 0⟩ ⟨1, 0, 0⟩ ⟨1, 2, 0⟩
        false [exC1WFile] ↔
      versionInPlanRange false (markerFor exC1WMig.info.type ⟨1, 0, 0⟩ ⟨1, 0, 0⟩)
        ⟨1, 2, 0⟩ exC1WFile.version = true ∧ directionOK false exC1WMig = true) ∧
    getMigrationsToExecute exC1WLoaded ⟨1, 2, 0⟩ ⟨1, 2, 0⟩ ⟨1, 2, 0⟩ false
      [exC1WFile] = [] := by
  constructor
  · exact (c1_plan_interval_and_direction exC1WLoaded ⟨1, 0, 0⟩ ⟨1, 0, 0⟩
      ⟨1, 2, 0⟩ false [exC1WFile] (by decide)).1 exC1WFile exC1WMig (by decide)
      (by decide)
  · exact (c1_plan_interval_and_direction exC1WLoaded ⟨1, 2, 0⟩ ⟨1, 2, 0⟩
      ⟨1, 2, 0⟩ false [exC1WFile] (by decide)).2 rfl rfl

/-! Claim C5. -/

/-- C5: the plan returned by `getMigrationsToExecute` is ordered by timestamp
ascending regardless of direction: any unit that precedes another in the plan
has a `date` less than or equal to it. -/
theorem c5_plan_sorted_by_date (loaded : LoadedMap)
    (dbVersion configVersion targetVersion : SemVer) (isDown : Bool)
    (files : List MigrationFile) :
    List.Pairwise (fun u v : MigrationFile => u.date ≤ v.date)
      (getMigrationsToExecute loaded dbVersion configVersion targetVersion
        isDown files) := by
  unfold getMigrationsToExecute sortByDate
  exact List.sorted_insertionSort dateLE _

/-! Claim C6. -/

/-- C6: on a downgrade run, every unit in the computed plan has a loaded
handler that provides a `down` function; a unit lacking one is silently
excluded rather than failing the run (the plan is simply filtered). -/
theorem c6_downgrade_requires_down (loaded : LoadedMap)
    (dbVersion configVersion targetVersion : SemVer)
    (files : List MigrationFile) (hne : loaded ≠ []) :
    ∀ u ∈ getMigrationsToExecute loaded dbVersion configVersion targetVersion
        true files,
      ∀ c, lookupLoaded loaded u.filename = some c → c.down.isSome = true := by
  intro u hu c hc
  rw [mem_getMigrationsToExecute hne] at hu
  obtain ⟨-, c', hc', hd, -⟩ := hu
  rw [hc] at hc'
  cases hc'
  simpa [directionOK] using hd

/-- Catalog unit for the C6 witness: has a `down` handler and lies in the
downgrade interval. -/
def exC6File : MigrationFile := ⟨1, ⟨1, 1, 0⟩, "c6.js", "t"⟩

/-- Loaded module for the C6 witness. -/
def exC6Mig : Migration :=
  ⟨⟨"d", none, MigrationType.config⟩, HandlerBehavior.returns true none,
    some (HandlerBehavior.returns true none)⟩

/-- Loaded map for the C6 witness. -/
def exC6Loaded : LoadedMap := [("c6.js", exC6Mig)]

/-- Witness for C6 at a concrete downgrade run from 1.2.0 to 1.0.0. -/
theorem c6_downgrade_requires_down_witness : exC6Mig.down.isSome = true :=
  c6_downgrade_requires_down exC6Loaded ⟨1, 2, 0⟩ ⟨1, 2, 0⟩ ⟨1, 0, 0⟩ [exC6File]
    (by decide) exC6File (by decide) exC6Mig (by decide)

/-! Claim C10. -/

/-- C10: while `loadedMigrations` is empty, `filterMigrations` applies only
the version-interval filter — the direction, domain-type and target filters
are all skipped, so the result is exactly the version-filtered file list
(a unit lacking a `down` handler, or of a non-matching domain, can appear). -/
theorem c10_empty_loaded_version_filter_only (targetVersion : SemVer)
    (files : List MigrationFile) (currentVersion : SemVer) (opts : FilterOpts) :
    filterMigrations [] targetVersion files currentVersion opts =
      files.filter (fun file =>
        versionInPlanRange opts.isDown currentVersion targetVersion file.version) := by
  simp [filterMigrations]

/-! Helper lemmas about the executor. -/

/-- A plan whose units all complete (return an outcome or are ignored) runs
without an uncaught error. -/
lemma runUnits_err_none {loaded : LoadedMap} {env : ExecEnv}
    {plan : List MigrationFile}
    (hok : ∀ f ∈ plan, (runUnit loaded env f).2.2 = none) :
    (runUnits loaded env plan).2.2 = none := by
  induction plan with
  | nil => rfl
  | cons g gs ih =>
    have hg := hok g (List.mem_cons_self g gs)
    simp only [runUnits, hg]
    exact ih fun f hf => hok f (List.mem_cons_of_mem g hf)

/-- When no unit errors, every unit's events appear in the run's events. -/
lemma runUnits_mem_of_mem {loaded : LoadedMap} {env : ExecEnv}
    {plan : List MigrationFile} {f : MigrationFile} {e : Event}
    (hok : ∀ g ∈ plan, (runUnit loaded env g).2.2 = none)
    (hf : f ∈ plan) (he : e ∈ (runUnit loaded env f).1) :
    e ∈ (runUnits loaded env plan).1 := by
  induction plan with
  | nil => cases hf
  | cons g gs ih =>
    have hg := hok g (List.mem_cons_self g gs)
    simp only [runUnits, hg, List.mem_append]
    rcases List.mem_cons.mp hf with rfl | hf'
    · exact Or.inl he
    · exact Or.inr (ih (fun x hx => hok x (List.mem_cons_of_mem g hx)) hf')

/-- When no unit errors, a unit reporting `success: false` makes the run's
`hasFailures` flag true. -/
lemma runUnits_fail_of {loaded : LoadedMap} {env : ExecEnv}
    {plan : List MigrationFile}
    (hok : ∀ g ∈ plan, (runUnit loaded env g).2.2 = none)
    (hfail : ∃ f ∈ plan, (runUnit loaded env f).2.1 = true) :
    (runUnits loaded env plan).2.1 = true := by
  induction plan with
  | nil => obtain ⟨f, hf, -⟩ := hfail; cases hf
  | cons g gs ih =>
    have hg := hok g (List.mem_cons_self g gs)
    simp only [runUnits, hg, Bool.or_eq_true]
    obtain ⟨f, hf, hr⟩ := hfail
    rcases List.mem_cons.mp hf with rfl | hf'
    · exact Or.inl hr
    · exact Or.inr (ih (fun x hx => hok x (List.mem_cons_of_mem g hx)) ⟨f, hf', hr⟩)

/-- A non-ignored unit that completes without an uncaught error had its
handler invoked. -/
lemma invoked_mem_runUnit {loaded : LoadedMap} {env : ExecEnv}
    {f : MigrationFile}
    (hok : (runUnit loaded env f).2.2 = none)
    (hig : ignoreHit env.ignoreList f.filename = false) :
    Event.invokedHandler f.filename env.isDown ∈ (runUnit loaded env f).1 := by
  cases hc : lookupLoaded loaded f.filename with
  | none => simp [runUnit, hig, hc] at hok
  | some c =>
    cases hh : handlerFor env.isDown c with
    | none => simp [runUnit, hig, hc, hh] at hok
    | some b =>
      cases b with
      | returns s m => simp [runUnit, hig, hc, hh]
      | throws msg => simp [runUnit, hig, hc, hh] at hok

/-- Unit execution never emits a config-marker write. -/
lemma runUnit_no_config_marker (loaded : LoadedMap) (env : ExecEnv)
    (f : MigrationFile) (v : SemVer) :
    Event.configMarkerWrite v ∉ (runUnit loaded env f).1 := by
  cases hig : ignoreHit env.ignoreList f.filename with
  | true => simp [runUnit, hig]
  | false =>
    cases hc : lookupLoaded loaded f.filename with
    | none => simp [runUnit, hig, hc]
    | some c =>
      cases hh : handlerFor env.isDown c with
      | none => simp [runUnit, hig, hc, hh]
      | some b =>
        cases b with
        | returns s m => cases s <;> simp [runUnit, hig, hc, hh]
        | throws msg => simp [runUnit, hig, hc, hh]

/-- Plan execution never emits a config-marker write. -/
lemma runUnits_no_config_marker (loaded : LoadedMap) (env : ExecEnv)
    (plan : List MigrationFile) (v : SemVer) :
    Event.configMarkerWrite v ∉ (runUnits loaded env plan).1 := by
  induction plan with
  | nil => simp [runUnits]
  | cons g gs ih =>
    simp only [runUnits]
    cases he : (runUnit loaded env g).2.2 with
    | none =>
      simp only [he, List.mem_append, not_or]
      exact ⟨runUnit_no_config_marker loaded env g v, ih⟩
    | some e =>
      simp only [he]
      exact runUnit_no_config_marker loaded env g v

/-- Cache clearing never emits a config-marker write. -/
lemma cacheEvents_no_config_marker (env : ExecEnv) (v : SemVer) :
    Event.configMarkerWrite v ∉ cacheEvents env := by
  unfold cacheEvents
  split
  · split <;> simp
  · simp

/-! Claim C3. -/

/-- First unit of the C3 counterexample plan: reports `success: false`. -/
def exC3CFile1 : MigrationFile := ⟨1, ⟨1, 1, 0⟩, "c3x.js", "t"⟩

/-- Second unit of the C3 counterexample plan: its handler throws. -/
def exC3CFile2 : MigrationFile := ⟨2, ⟨1, 1, 5⟩, "c3y.js", "t"⟩

/-- Third unit of the C3 counterexample plan: never reached. -/
def exC3CFile3 : MigrationFile := ⟨3, ⟨1, 2, 0⟩, "c3z.js", "t"⟩

/-- Loaded map for the C3 counterexample. -/
def exC3CLoaded : LoadedMap :=
  [("c3x.js", ⟨⟨"d", none, MigrationType.config⟩,
      HandlerBehavior.returns false (some "boom"), none⟩),
   ("c3y.js", ⟨⟨"d", none, MigrationType.config⟩,
      HandlerBehavior.throws "later throw", none⟩),
   ("c3z.js", ⟨⟨"d", none, MigrationType.config⟩,
      HandlerBehavior.returns true none, none⟩)]

/-- Executor environment for the C3 counterexample: failsafe mode. -/
def exC3CEnv : ExecEnv := ⟨false, none, false, false, true⟩

/-- C3 counterexample: a run in which the first executed unit reports
`success: false` (so the claim's antecedent holds) but a later unit's handler
raises. Execution does not continue through every remaining planned unit —
the third unit's handler is never invoked — and the orchestrator never
reaches the post-plan termination decision: the outcome is the propagated
exception, neither the strict-mode exit nor a failsafe return. -/
theorem c3_counterexample :
    Event.unitFailed "c3x.js" ∈
      (executeMigrations exC3CLoaded exC3CEnv ⟨1, 2, 0⟩
        [exC3CFile1, exC3CFile2, exC3CFile3]).1 ∧
    Event.invokedHandler "c3z.js" false ∉
      (executeMigrations exC3CLoaded exC3CEnv ⟨1, 2, 0⟩
        [exC3CFile1, exC3CFile2, exC3CFile3]).1 ∧
    (executeMigrations exC3CLoaded exC3CEnv ⟨1, 2, 0⟩
        [exC3CFile1, exC3CFile2, exC3CFile3]).2 =
      Outcome.raised "later throw" := by
  decide

/-- C3 (amended): in a run where at least one unit reports `success: false`
and every planned unit completes by returning an outcome (no handler raises —
a raising handler instead aborts the run at that unit), execution still
reaches every planned non-ignored unit's handler, and only after the full
plan the termination decision is made: strict mode exits the process,
failsafe mode returns control normally. -/
theorem c3_failures_continue_to_end (loaded : LoadedMap) (env : ExecEnv)
    (targetVersion : SemVer) (plan : List MigrationFile)
    (hok : ∀ f ∈ plan, (runUnit loaded env f).2.2 = none)
    (hfail : ∃ f ∈ plan, (runUnit loaded env f).2.1 = true) :
    (∀ f ∈ plan, ignoreHit env.ignoreList f.filename = false →
      Event.invokedHandler f.filename env.isDown ∈
        (executeMigrations loaded env targetVersion plan).1) ∧
    (executeMigrations loaded env targetVersion plan).2 =
      (if env.isFailsafe then Outcome.normal else Outcome.exited) := by
  have herr := runUnits_err_none hok
  have hfl := runUnits_fail_of hok hfail
  constructor
  · intro f hfp hig
    have h2 : Event.invokedHandler f.filename env.isDown ∈
        (runUnits loaded env plan).1 :=
      runUnits_mem_of_mem hok hfp (invoked_mem_runUnit (hok f hfp) hig)
    simp only [executeMigrations, herr, hfl, if_true]
    cases env.isFailsafe <;> simp [List.mem_append, h2]
  · simp only [executeMigrations, herr, hfl, if_true]
    cases env.isFailsafe <;> simp

/-- Plan and handlers for the C3 witness: the first unit fails, the second
succeeds, failsafe mode. -/
def exC3File1 : MigrationFile := ⟨1, ⟨1, 1, 0⟩, "c3a.js", "t"⟩

/-- Second unit for the C3 witness. -/
def exC3File2 : MigrationFile := ⟨2, ⟨1, 2, 0⟩, "c3b.js", "t"⟩

/-- Loaded map for the C3 witness. -/
def exC3Loaded : LoadedMap :=
  [("c3a.js", ⟨⟨"d", none, MigrationType.config⟩,
      HandlerBehavior.returns false (some "boom"), none⟩),
   ("c3b.js", ⟨⟨"d", none, MigrationType.config⟩,
      HandlerBehavior.returns true none, none⟩)]

/-- Executor environment for the C3 witness: failsafe mode. -/
def exC3Env : ExecEnv := ⟨false, none, false, false, true⟩

/-- Witness for C3 at a concrete failsafe run with one failing unit. -/
theorem c3_failures_continue_to_end_witness :
    (∀ f ∈ [exC3File1, exC3File2],
      ignoreHit exC3Env.ignoreList f.filename = false →
      Event.invokedHandler f.filename exC3Env.isDown ∈
        (executeMigrations exC3Loaded exC3Env ⟨1, 2, 0⟩
          [exC3File1, exC3File2]).1) ∧
    (executeMigrations exC3Loaded exC3Env ⟨1, 2, 0⟩
        [exC3File1, exC3File2]).2 =
      (if exC3Env.isFailsafe then Outcome.normal else Outcome.exited) :=
  c3_failures_continue_to_end exC3Loaded exC3Env ⟨1, 2, 0⟩
    [exC3File1, exC3File2] (by decide) ⟨exC3File1, by decide, by decide⟩

/-! Claim C7. -/

/-- Plan for the C7 counterexample: the first unit's handler throws, a second
unit follows. -/
def exC7File1 : MigrationFile := ⟨1, ⟨1, 1, 0⟩, "c7a.js", "t"⟩

/-- Second unit for the C7 counterexample. -/
def exC7File2 : MigrationFile := ⟨2, ⟨1, 2, 0⟩, "c7b.js", "t"⟩

/-- Loaded map for the C7 counterexample: `c7a.js` throws. -/
def exC7Loaded : LoadedMap :=
  [("c7a.js", ⟨⟨"d", none, MigrationType.config⟩,
      HandlerBehavior.throws "boom", none⟩),
   ("c7b.js", ⟨⟨"d", none, MigrationType.config⟩,
      HandlerBehavior.returns true none, none⟩)]

/-- Executor environment for the C7 counterexample. -/
def exC7Env : ExecEnv := ⟨false, none, false, false, true⟩

/-- C7 counterexample: when the first unit's handler throws, the exception is
not captured as a `{success: false}` outcome — the run terminates with the
raised error, no failure outcome is recorded for the unit, and the next
planned unit's handler is never invoked. -/
theorem c7_counterexample :
    (executeMigrations exC7Loaded exC7Env ⟨1, 2, 0⟩
        [exC7File1, exC7File2]).2 = Outcome.raised "boom" ∧
    Event.unitFailed "c7a.js" ∉
      (executeMigrations exC7Loaded exC7Env ⟨1, 2, 0⟩
        [exC7File1, exC7File2]).1 ∧
    Event.invokedHandler "c7b.js" false ∉
      (executeMigrations exC7Loaded exC7Env ⟨1, 2, 0⟩
        [exC7File1, exC7File2]).1 := by
  decide

/-- A unit erroring mid-plan stops the run there: the run's error is that
unit's error and the events are those of the plan truncated after it. -/
lemma runUnits_error_at {loaded : LoadedMap} {env : ExecEnv}
    {pre : List MigrationFile} {f : MigrationFile} {msg : String}
    (hpre : ∀ g ∈ pre, (runUnit loaded env g).2.2 = none)
    (herr : (runUnit loaded env f).2.2 = some msg) (post : List MigrationFile) :
    (runUnits loaded env (pre ++ f :: post)).2.2 = some msg ∧
    (runUnits loaded env (pre ++ f :: post)).1 =
      (runUnits loaded env (pre ++ [f])).1 := by
  induction pre with
  | nil => simp [runUnits, herr]
  | cons g gs ih =>
    have hg := hpre g (List.mem_cons_self g gs)
    have ih' := ih fun x hx => hpre x (List.mem_cons_of_mem g hx)
    simp only [List.cons_append, runUnits, hg, List.append_eq]
    exact ⟨ih'.1, by rw [ih'.2]⟩

/-- C7 (amended): a handler that raises is not captured by the executor: the
exception propagates as the run's outcome, the remaining planned units are
not executed (the trace equals that of the plan truncated after the raising
unit), and no `success: false` outcome is fabricated for it. -/
theorem c7_thrown_exception_aborts_run (loaded : LoadedMap) (env : ExecEnv)
    (targetVersion : SemVer) (pre post : List MigrationFile)
    (f : MigrationFile) (c : Migration) (msg : String)
    (hpre : ∀ g ∈ pre, (runUnit loaded env g).2.2 = none)
    (hig : ignoreHit env.ignoreList f.filename = false)
    (hc : lookupLoaded loaded f.filename = some c)
    (hthrow : handlerFor env.isDown c = some (HandlerBehavior.throws msg)) :
    (executeMigrations loaded env targetVersion (pre ++ f :: post)).2 =
      Outcome.raised msg ∧
    (executeMigrations loaded env targetVersion (pre ++ f :: post)).1 =
      (executeMigrations loaded env targetVersion (pre ++ [f])).1 := by
  have hrf : (runUnit loaded env f).2.2 = some msg := by
    simp [runUnit, hig, hc, hthrow]
  have h1 := runUnits_error_at hpre hrf post
  have h2 := runUnits_error_at hpre hrf []
  simp only [executeMigrations, h1.1, h1.2, h2.1, h2.2, and_self]

/-- Throwing module for the C7 witness. -/
def exC7WMig : Migration :=
  ⟨⟨"d", none, MigrationType.config⟩, HandlerBehavior.throws "kaput", none⟩

/-- Loaded map for the C7 witness. -/
def exC7WLoaded : LoadedMap :=
  [("c7a.js", ⟨⟨"d", none, MigrationType.config⟩,
      HandlerBehavior.returns true none, none⟩),
   ("c7t.js", exC7WMig)]

/-- Executor environment for the C7 witness. -/
def exC7WEnv : ExecEnv := ⟨false, none, false, false, true⟩

/-- Units before the throwing unit in the C7 witness plan. -/
def exC7WPre : List MigrationFile := [⟨1, ⟨1, 1, 0⟩, "c7a.js", "t"⟩]

/-- The throwing unit of the C7 witness plan. -/
def exC7WThrow : MigrationFile := ⟨2, ⟨1, 2, 0⟩, "c7t.js", "t"⟩

/-- Units after the throwing unit in the C7 witness plan. -/
def exC7WPost : List MigrationFile := [⟨3, ⟨1, 2, 0⟩, "c7a.js", "t"⟩]

/-- Witness for the amended C7: concrete plan whose second unit throws. -/
theorem c7_thrown_exception_aborts_run_witness :
    (executeMigrations exC7WLoaded exC7WEnv ⟨1, 2, 0⟩
        (exC7WPre ++ exC7WThrow :: exC7WPost)).2 = Outcome.raised "kaput" ∧
    (executeMigrations exC7WLoaded exC7WEnv ⟨1, 2, 0⟩
        (exC7WPre ++ exC7WThrow :: exC7WPost)).1 =
      (executeMigrations exC7WLoaded exC7WEnv ⟨1, 2, 0⟩
        (exC7WPre ++ [exC7WThrow])).1 :=
  c7_thrown_exception_aborts_run exC7WLoaded exC7WEnv ⟨1, 2, 0⟩ exC7WPre
    exC7WPost exC7WThrow exC7WMig "kaput" (by decide) (by decide) (by decide)
    (by decide)

/-! Claim C4. -/

/-- Run environment for the C4 counterexample: failsafe mode, auto-migrate,
one config-domain unit that reports failure, config marker at 1.0.0, target
1.2.0. -/
def exC4Env : Env :=
  { skipMigrations := false
    migrateTarget := some "1.2.0"
    testmigBpVersion := none
    botpressVersion := ⟨1, 2, 0⟩
    migrateCmd := none
    migrateDryRun := false
    autoMigrate := true
    isFailsafe := true
    ignoreList := none
    testmigAll := false
    testmigNew := false
    testmigConfigVersion := none
    testmigDbVersion := none
    storedConfigVersion := ⟨1, 0, 0⟩
    storedDbVersion := some ⟨1, 0, 0⟩
    cachePathExists := false
    cacheClearFails := false
    auditWriteFails := false
    markerWriteFails := false
    diskMigrations := [(⟨1, ⟨1, 1, 0⟩, "c4.js", "t"⟩,
      ⟨⟨"d", none, MigrationType.config⟩,
        HandlerBehavior.returns false (some "boom"), none⟩)] }

/-- C4 counterexample: in a failsafe-mode run whose only (config-domain) unit
fails, the run still advances the config marker to the target version — and
the database marker as well — instead of leaving the failed domain's marker
unchanged. -/
theorem c4_counterexample :
    Event.unitFailed "c4.js" ∈ (initializeService exC4Env).1 ∧
    Event.configMarkerWrite ⟨1, 2, 0⟩ ∈ (initializeService exC4Env).1 ∧
    Event.dbMarkerWrite ⟨1, 2, 0⟩ ∈ (initializeService exC4Env).1 ∧
    (initializeService exC4Env).2 = Outcome.normal := by
  decide

/-- C4 (amended): marker writes are not guarded by per-domain plans or
failures. When no unit raises, the executor writes the config marker to
`targetVersion` in every completed run — including runs with an empty plan and
failsafe runs with failed units — and skips it exactly when a strict-mode
failure exits the process; independently, the recorder writes the database
marker to `targetVersion` exactly when the db marker differs from the target,
regardless of which domains ran. -/
theorem c4_markers_not_domain_guarded (loaded : LoadedMap) (env : ExecEnv)
    (targetVersion : SemVer) (plan : List MigrationFile) (penv : PersistEnv)
    (dbVersion : SemVer)
    (hok : ∀ f ∈ plan, (runUnit loaded env f).2.2 = none)
    (hpm : penv.markerWriteFails = false) :
    (Event.configMarkerWrite targetVersion ∈
        (executeMigrations loaded env targetVersion plan).1 ↔
      ((runUnits loaded env plan).2.1 = true → env.isFailsafe = true)) ∧
    (Event.dbMarkerWrite targetVersion ∈
        (persistMigrationStatus penv dbVersion targetVersion).1 ↔
      dbVersion ≠ targetVersion) := by
  have herr := runUnits_err_none hok
  constructor
  · simp only [executeMigrations, herr]
    cases hfl : (runUnits loaded env plan).2.1 with
    | true =>
      cases hfs : env.isFailsafe with
      | true => simp
      | false =>
        have h1 := cacheEvents_no_config_marker env targetVersion
        have h2 := runUnits_no_config_marker loaded env plan targetVersion
        simp [h1, h2]
    | false => simp
  · unfold persistMigrationStatus
    by_cases hdb : dbVersion = targetVersion
    · subst hdb
      simp only [ne_eq, not_true_eq_false, if_false, ite_not]
      cases penv.auditWriteFails <;> simp
    · simp only [hdb, ne_eq, not_false_eq_true, if_true, hpm]
      simp [hdb]

/-- Witness for the amended C4 at a concrete run: failsafe mode, one failing
unit, db marker behind the target. -/
theorem c4_markers_not_domain_guarded_witness :
    (Event.configMarkerWrite ⟨1, 2, 0⟩ ∈
        (executeMigrations exC3Loaded ⟨false, none, false, false, true⟩
          ⟨1, 2, 0⟩ [exC3File1]).1 ↔
      ((runUnits exC3Loaded ⟨false, none, false, false, true⟩
          [exC3File1]).2.1 = true →
        (⟨false, none, false, false, true⟩ : ExecEnv).isFailsafe = true)) ∧
    (Event.dbMarkerWrite ⟨1, 2, 0⟩ ∈
        (persistMigrationStatus ⟨false, false⟩ ⟨1, 0, 0⟩ ⟨1, 2, 0⟩).1 ↔
      (⟨1, 0, 0⟩ : SemVer) ≠ ⟨1, 2, 0⟩) :=
  c4_markers_not_domain_guarded exC3Loaded ⟨false, none, false, false, true⟩
    ⟨1, 2, 0⟩ [exC3File1] ⟨false, false⟩ ⟨1, 0, 0⟩ (by decide) (by decide)

/-! Helper lemmas about discovery and loading. -/

/-- Handler loading emits only `loadedHandler` events, never a mutation. -/
lemma loadMigrationsAux_no_mutation :
    ∀ (disk : List (MigrationFile × Migration)) (acc : LoadedMap),
      ∀ e ∈ (loadMigrationsAux acc disk).2, e.isMutation = false := by
  intro disk
  induction disk with
  | nil => intro acc e he; cases he
  | cons p rest ih =>
    intro acc e he
    simp only [loadMigrationsAux] at he
    split at he
    · exact ih _ e he
    · rcases List.mem_cons.mp he with rfl | he'
      · rfl
      · exact ih _ e he'

/-! Claim C2. -/

/-- Run environment for the C2 counterexample: an invalid explicit target and
one migration file on disk. -/
def exC2Env : Env :=
  { skipMigrations := false
    migrateTarget := some "not-a-version"
    testmigBpVersion := none
    botpressVersion := ⟨1, 2, 0⟩
    migrateCmd := some "up"
    migrateDryRun := false
    autoMigrate := true
    isFailsafe := false
    ignoreList := none
    testmigAll := false
    testmigNew := false
    testmigConfigVersion := none
    testmigDbVersion := none
    storedConfigVersion := ⟨1, 0, 0⟩
    storedDbVersion := some ⟨1, 0, 0⟩
    cachePathExists := true
    cacheClearFails := false
    auditWriteFails := false
    markerWriteFails := false
    diskMigrations := [(⟨1, ⟨1, 1, 0⟩, "c2.js", "t"⟩,
      ⟨⟨"d", none, MigrationType.config⟩,
        HandlerBehavior.returns true none, none⟩)] }

/-- C2 counterexample: with the invalid explicit target `"not-a-version"`,
the orchestrator still enumerates the catalog and loads the handler module
for `c2.js` before aborting — discovery and handler loading are not
prevented, contradicting the claim that the run aborts before any discovery
and before any handler module is loaded. -/
theorem c2_counterexample :
    Event.discovered ∈ (initializeService exC2Env).1 ∧
    Event.loadedHandler "c2.js" ∈ (initializeService exC2Env).1 ∧
    (initializeService exC2Env).2 = Outcome.exited := by
  decide

/-- C2 (amended): an invalid explicit target aborts the run before any
mutation — no cache cleared, no handler invoked, no marker or audit write —
but only after discovery: the trace is exactly catalog enumeration and
handler loading followed by the invalid-target error, and the process
exits. -/
theorem c2_invalid_target_aborts_after_discovery (env : Env) (s : String)
    (hskip : env.skipMigrations = false)
    (ht : env.migrateTarget = some s)
    (hs : s.data.isEmpty = false)
    (hv : parseSemver s = none) :
    (initializeService env).1 =
      (Event.discovered :: (loadMigrations env.diskMigrations).2) ++
        [Event.loggedInvalidTarget] ∧
    (initializeService env).2 = Outcome.exited ∧
    ∀ e ∈ (initializeService env).1, e.isMutation = false := by
  have hd : detectVersions env (env.diskMigrations.map (fun p => p.1)) = none := by
    unfold detectVersions effectiveTarget
    rw [ht]
    simp [hs, hv]
  have hmain : initializeService env =
      ((Event.discovered :: (loadMigrations env.diskMigrations).2) ++
        [Event.loggedInvalidTarget], Outcome.exited) := by
    unfold initializeService
    rw [hskip]
    simp only [Bool.false_eq_true, if_false, hd]
  refine ⟨by rw [hmain], by rw [hmain], ?_⟩
  rw [hmain]
  intro e he
  rcases List.mem_append.mp he with h1 | h2
  · rcases List.mem_cons.mp h1 with rfl | h1'
    · rfl
    · exact loadMigrationsAux_no_mutation env.diskMigrations [] e h1'
  · rcases List.mem_cons.mp h2 with rfl | h2'
    · rfl
    · cases h2'

/-- Witness for the amended C2 at the concrete invalid-target environment. -/
theorem c2_invalid_target_aborts_after_discovery_witness :
    (initializeService exC2Env).1 =
      (Event.discovered :: (loadMigrations exC2Env.diskMigrations).2) ++
        [Event.loggedInvalidTarget] ∧
    (initializeService exC2Env).2 = Outcome.exited ∧
    ∀ e ∈ (initializeService exC2Env).1, e.isMutation = false :=
  c2_invalid_target_aborts_after_discovery exC2Env "not-a-version" (by decide)
    (by decide) (by decide) (by decide)

/-! Claim C8. -/

/-- C8: a dry-run invocation (the dry-run directive set alongside an explicit
migration command, with a resolvable target version) displays the plan and
exits without invoking any handler, without clearing the cache, and without
writing any version marker or audit record. -/
theorem c8_dry_run_no_mutation (env : Env) (c : String)
    (vs : SemVer × SemVer × SemVer)
    (hskip : env.skipMigrations = false)
    (hdry : env.migrateDryRun = true)
    (hcmd : env.migrateCmd = some c)
    (hv : detectVersions env (env.diskMigrations.map (fun p => p.1)) = some vs) :
    Event.displayedStatus true ∈ (initializeService env).1 ∧
    (initializeService env).2 = Outcome.exited ∧
    ∀ e ∈ (initializeService env).1, e.isMutation = false := by
  obtain ⟨cv, dv, tv⟩ := vs
  have hmain : initializeService env =
      ((Event.discovered :: (loadMigrations env.diskMigrations).2) ++
        [Event.displayedStatus true], Outcome.exited) := by
    unfold initializeService
    rw [hskip]
    simp only [Bool.false_eq_true, if_false, hv, hcmd, hdry, Option.isNone_some,
      Bool.and_false, if_true]
  refine ⟨by rw [hmain]; simp, by rw [hmain], ?_⟩
  rw [hmain]
  intro e he
  rcases List.mem_append.mp he with h1 | h2
  · rcases List.mem_cons.mp h1 with rfl | h1'
    · rfl
    · exact loadMigrationsAux_no_mutation env.diskMigrations [] e h1'
  · rcases List.mem_cons.mp h2 with rfl | h2'
    · rfl
    · cases h2'

/-- Run environment for the C8 witness: dry-run with an explicit command. -/
def exC8Env : Env :=
  { skipMigrations := false
    migrateTarget := some "1.2.0"
    testmigBpVersion := none
    botpressVersion := ⟨1, 2, 0⟩
    migrateCmd := some "up"
    migrateDryRun := true
    autoMigrate := true
    isFailsafe := false
    ignoreList := none
    testmigAll := false
    testmigNew := false
    testmigConfigVersion := none
    testmigDbVersion := none
    storedConfigVersion := ⟨1, 0, 0⟩
    storedDbVersion := some ⟨1, 0, 0⟩
    cachePathExists := true
    cacheClearFails := false
    auditWriteFails := false
    markerWriteFails := false
    diskMigrations := [(⟨1, ⟨1, 1, 0⟩, "c8.js", "t"⟩,
      ⟨⟨"d", none, MigrationType.config⟩,
        HandlerBehavior.returns true none, none⟩)] }

/-- Witness for C8 at the concrete dry-run environment. -/
theorem c8_dry_run_no_mutation_witness :
    Event.displayedStatus true ∈ (initializeService exC8Env).1 ∧
    (initializeService exC8Env).2 = Outcome.exited ∧
    ∀ e ∈ (initializeService exC8Env).1, e.isMutation = false :=
  c8_dry_run_no_mutation exC8Env "up"
    (⟨1, 0, 0⟩, ⟨1, 0, 0⟩, ⟨1, 2, 0⟩) (by decide) (by decide) (by decide)
    (by decide)

/-! Claim C9. -/

/-- C9 counterexample: when the `srv_metadata` marker insert fails (db marker
behind the target), `persistMigrationStatus` does not log a warning and
complete — it propagates the error, because only the audit insert is wrapped
in try/catch. -/
theorem c9_counterexample :
    (persistMigrationStatus ⟨false, true⟩ ⟨1, 0, 0⟩ ⟨1, 2, 0⟩).2 =
      Outcome.raised "insert srv_metadata failed" ∧
    Event.warnedAuditFailed ∉
      (persistMigrationStatus ⟨false, true⟩ ⟨1, 0, 0⟩ ⟨1, 2, 0⟩).1 := by
  decide

/-- C9 (amended): the two recording writes behave differently. A failure of
the audit-record write is caught, logged as a warning, and the function still
completes normally (when the marker write does not also fail); a failure of
the version-marker write is not caught and propagates out of
`persistMigrationStatus`. -/
theorem c9_audit_caught_marker_not (penv : PersistEnv)
    (dbVersion targetVersion : SemVer) :
    (penv.auditWriteFails = true → penv.markerWriteFails = false →
      Event.warnedAuditFailed ∈
        (persistMigrationStatus penv dbVersion targetVersion).1 ∧
      (persistMigrationStatus penv dbVersion targetVersion).2 = Outcome.normal) ∧
    (penv.markerWriteFails = true → dbVersion ≠ targetVersion →
      (persistMigrationStatus penv dbVersion targetVersion).2 =
        Outcome.raised "insert srv_metadata failed") := by
  constructor
  · intro ha hm
    unfold persistMigrationStatus
    rw [ha, hm]
    by_cases hdb : dbVersion = targetVersion <;> simp [hdb]
  · intro hm hdb
    unfold persistMigrationStatus
    rw [hm]
    simp [hdb]

/-- Witness for the amended C9 at concrete recording environments. -/
theorem c9_audit_caught_marker_not_witness :
    (Event.warnedAuditFailed ∈
      (persistMigrationStatus ⟨true, false⟩ ⟨1, 0, 0⟩ ⟨1, 2, 0⟩).1 ∧
      (persistMigrationStatus ⟨true, false⟩ ⟨1, 0, 0⟩ ⟨1, 2, 0⟩).2 =
        Outcome.normal) ∧
    (persistMigrationStatus ⟨false, true⟩ ⟨1, 1, 0⟩ ⟨1, 2, 0⟩).2 =
      Outcome.raised "insert srv_metadata failed" :=
  ⟨(c9_audit_caught_marker_not ⟨true, false⟩ ⟨1, 0, 0⟩ ⟨1, 2, 0⟩).1 rfl rfl,
   (c9_audit_caught_marker_not ⟨false, true⟩ ⟨1, 1, 0⟩ ⟨1, 2, 0⟩).2 rfl
     (by decide)⟩

end BP
